import Mathlib

/-!
Shallow embedding of `src/analysis/analyze_results.py`, the result-analysis
pipeline of the concurrent-queue benchmark repository.

Python floats are modelled as rationals (all arithmetic the script performs
is decimal parsing and division by powers of ten), Python strings as Lean
strings over their character lists, the result tree walked by `os.walk` as a
list of directory entries carrying their contained files, and exceptions as
`Except String`.
-/

set_option maxRecDepth 20000

instance {ε α : Type} [DecidableEq ε] [DecidableEq α] :
    DecidableEq (Except ε α) := fun x y =>
  match x, y with
  | Except.error a, Except.error b =>
    if h : a = b then isTrue (by rw [h])
    else isFalse (by intro hc; cases hc; exact h rfl)
  | Except.error _, Except.ok _ => isFalse (by intro hc; cases hc)
  | Except.ok _, Except.error _ => isFalse (by intro hc; cases hc)
  | Except.ok a, Except.ok b =>
    if h : a = b then isTrue (by rw [h])
    else isFalse (by intro hc; cases hc; exact h rfl)

/-! ### Character-list utilities (Python string primitives) -/

/-- Decimal value of a digit string, as computed by Python `int` on a
`\d+` regex group. -/
def natOfDigits (ds : List Char) : ℕ :=
  ds.foldl (fun n c => 10 * n + (c.toNat - '0'.toNat)) 0

/-- `isPrefixL p cs` holds when `p` is a prefix of `cs`
(Python `str.startswith`). -/
def isPrefixL : List Char → List Char → Bool
  | [], _ => true
  | _ :: _, [] => false
  | p :: ps, c :: cs => p = c && isPrefixL ps cs

/-- Remove a leading prefix, or fail. -/
def stripPfx : List Char → List Char → Option (List Char)
  | [], cs => some cs
  | _ :: _, [] => none
  | p :: ps, c :: cs => if p = c then stripPfx ps cs else none

/-- Substring containment (Python `pat in s`). -/
def listContainsSub (pat : List Char) : List Char → Bool
  | [] => isPrefixL pat []
  | c :: cs => isPrefixL pat (c :: cs) || listContainsSub pat cs

/-- Characters before the first occurrence of `pat`
(Python `s.split(pat)[0]` for nonempty `pat`). -/
def takeUntilSub (pat : List Char) : List Char → List Char
  | [] => []
  | c :: cs => if isPrefixL pat (c :: cs) then [] else c :: takeUntilSub pat cs

/-- Strip leading and trailing whitespace (Python `str.strip`). -/
def stripWs (cs : List Char) : List Char :=
  ((cs.dropWhile Char.isWhitespace).reverse.dropWhile Char.isWhitespace).reverse

/-- Python `str.strip` on strings. -/
def trimS (s : String) : String := ⟨stripWs s.data⟩

/-- Python `s.startswith p`. -/
def startsWithS (s p : String) : Bool := isPrefixL p.data s.data

/-- Whitespace split with accumulator: words of non-whitespace characters,
empty pieces discarded, as Python `str.split()` with no argument. -/
def splitWsAcc : List Char → List Char → List (List Char)
  | acc, [] => if acc = [] then [] else [acc.reverse]
  | acc, c :: cs =>
    if c.isWhitespace then
      if acc = [] then splitWsAcc [] cs else acc.reverse :: splitWsAcc [] cs
    else splitWsAcc (c :: acc) cs

/-- Python `line.split()`: whitespace-separated tokens. -/
def tokens (s : String) : List String := (splitWsAcc [] s.data).map fun w => ⟨w⟩

/-- Python `" ".join(ts)`. -/
def joinSp : List String → String
  | [] => ""
  | [t] => t
  | t :: ts => t ++ " " ++ joinSp ts

/-- Python `os.path.join` for plain relative components. -/
def pathJoin (a b : String) : String := a ++ "/" ++ b

/-! ### Python `float` on the decimal literals this pipeline reads -/

/-- Division of a rational by a natural number, written through `mkRat` so
that the kernel can evaluate it; `qDivNat_eq_div` identifies it with `v / n`
for `n ≠ 0` (the script only ever divides by `1000` and `1000000`). -/
def qDivNat (v : ℚ) (n : ℕ) : ℚ := mkRat v.num (v.den * n)

/-- Value of the decimal numeral with integer digits `ip` and fractional
digits `fr`, written through `mkRat` so that the kernel can evaluate it;
`decimalVal_eq_div` identifies it with `ip + fr / 10 ^ |fr|`. -/
def decimalVal (ip fr : List Char) : ℚ :=
  mkRat (natOfDigits ip * 10 ^ fr.length + natOfDigits fr) (10 ^ fr.length)

/-- Unsigned decimal numeral, optionally with a fractional part:
`123`, `120.5`, `5.`, `.5`. -/
def parseDec (cs : List Char) : Option ℚ :=
  let ip := cs.takeWhile Char.isDigit
  let rest := cs.dropWhile Char.isDigit
  match rest with
  | [] => if ip = [] then none else some (natOfDigits ip)
  | '.' :: fr =>
    if fr.all Char.isDigit && !(ip = [] && fr = []) then
      some (decimalVal ip fr)
    else none
  | _ => none

/-- Python `float(s)` on the decimal forms the benchmark files contain
(surrounding whitespace tolerated, optional sign; exponent, infinity and
NaN spellings never occur in this pipeline and are not modelled).
`none` models the `ValueError` Python raises on an unparsable string. -/
def pyFloat (s : String) : Option ℚ :=
  match stripWs s.data with
  | '-' :: rest => (parseDec rest).map Neg.neg
  | '+' :: rest => parseDec rest
  | cs => parseDec cs

/-- Python `l[i]`: `IndexError` when out of range. -/
def pyIndex (l : List String) (i : ℕ) : Except String String :=
  match l.get? i with
  | some x => Except.ok x
  | none => Except.error "IndexError: list index out of range"

/-- `float(s)` with the Python error message. -/
def pyFloatE (s : String) : Except String ℚ :=
  match pyFloat s with
  | some v => Except.ok v
  | none => Except.error ("could not convert string to float: \x27" ++ s ++ "\x27")

/-! ### Configuration (module-level constants of the script) -/

def RESULTS_DIR : String := "../results"

def OUTPUT_ROOT : String := "../final_analysis_output"

def CSV_DIR : String := pathJoin OUTPUT_ROOT "csv"

def PLOTS_DIR : String := pathJoin OUTPUT_ROOT "plots"

def VALID_THREAD_COUNTS : List ℕ := [4, 8, 16]

def PLOT_SUBDIRS : List (String × String) :=
  [("runtime_ms", "runtime"), ("throughput_reqs_per_sec", "throughput"),
   ("latency_ms", "latency"), ("avg_enqueue_ms", "enqueue"),
   ("avg_dequeue_ms", "dequeue")]

/-! ### Parsing helpers of the script -/

/-- `parse_time_to_ms(value_with_unit)`: strip, split into value and unit,
convert the value with `float`, then dispatch on the unit. Exactly two
whitespace-separated tokens are required (the tuple unpacking raises
otherwise), and an unrecognized unit raises `ValueError`. -/
def parse_time_to_ms (value_with_unit : String) : Except String ℚ :=
  match tokens (trimS value_with_unit) with
  | [v, unit] =>
    match pyFloat v with
    | none => Except.error ("could not convert string to float: \x27" ++ v ++ "\x27")
    | some value =>
      if unit = "ms" then Except.ok value
      else if unit = "µs" then Except.ok (qDivNat value 1000)
      else if unit = "ns" then Except.ok (qDivNat value 1000000)
      else Except.error ("Unknown time unit: \x27" ++ unit ++ "\x27")
  | _ => Except.error "ValueError: not enough values to unpack"

/-- `parse_threads_and_reqs(dirname)`: `DIR_RE.fullmatch` against
`threads_(\d+)_(\d+)_reqPerClient`, returning the two captured integers.
The regex groups `\d+` are delimited by the non-digit `_`, so the greedy
backtracking match coincides with this maximal-munch parse: each group is
exactly the maximal digit run at its position. `none` models the Python
`(None, None)` return on a non-matching name. -/
def parse_threads_and_reqs (dirname : String) : Option (ℕ × ℕ) :=
  match stripPfx "threads_".data dirname.data with
  | none => none
  | some r1 =>
    let T := r1.takeWhile Char.isDigit
    let r2 := r1.dropWhile Char.isDigit
    if T = [] then none else
    match stripPfx "_".data r2 with
    | none => none
    | some r3 =>
      let R := r3.takeWhile Char.isDigit
      let r4 := r3.dropWhile Char.isDigit
      if R = [] then none else
      if r4 = "_reqPerClient".data then some (natOfDigits T, natOfDigits R)
      else none

/-- `parse_queue_name(filename)`: `filename.split("_results_")[0]`. -/
def parse_queue_name (filename : String) : String :=
  ⟨takeUntilSub "_results_".data filename.data⟩

/-! ### Result-file scanning -/

/-- The five metric slots of the `metrics` dict, in the order of the
dict literal of `parse_result_file`. -/
structure Metrics where
  runtime_ms : Option ℚ
  throughput_reqs_per_sec : Option ℚ
  latency_ms : Option ℚ
  avg_enqueue_ms : Option ℚ
  avg_dequeue_ms : Option ℚ
deriving DecidableEq

/-- The dict literal: all five slots start as `None`. -/
def emptyMetrics : Metrics := ⟨none, none, none, none, none⟩

/-- The five metric keys. -/
inductive MetricField where
  | runtime | throughput | latency | enqueue | dequeue
deriving DecidableEq

def setField (m : Metrics) : MetricField → ℚ → Metrics
  | .runtime, v => { m with runtime_ms := some v }
  | .throughput, v => { m with throughput_reqs_per_sec := some v }
  | .latency, v => { m with latency_ms := some v }
  | .enqueue, v => { m with avg_enqueue_ms := some v }
  | .dequeue, v => { m with avg_dequeue_ms := some v }

def getField (m : Metrics) : MetricField → Option ℚ
  | .runtime => m.runtime_ms
  | .throughput => m.throughput_reqs_per_sec
  | .latency => m.latency_ms
  | .enqueue => m.avg_enqueue_ms
  | .dequeue => m.avg_dequeue_ms

/-- The `if`/`elif` prefix dispatch of the loop body of `parse_result_file`:
strip the line, test the five label prefixes in order, and extract the
value the matched branch computes (which may itself fail). `none` means the
line matches no label and is ignored. -/
def classifyLine (rawLine : String) : Option (MetricField × Except String ℚ) :=
  let line := trimS rawLine
  if startsWithS line "Total runtime:" then
    some (.runtime, pyIndex (tokens line) 2 >>= pyFloatE)
  else if startsWithS line "Avg enqueue time:" then
    some (.enqueue, parse_time_to_ms (joinSp ((tokens line).drop 3)))
  else if startsWithS line "Avg dequeue time:" then
    some (.dequeue, parse_time_to_ms (joinSp ((tokens line).drop 3)))
  else if startsWithS line "Avg end-to-end request latency:" then
    some (.latency, parse_time_to_ms (joinSp ((tokens line).drop 4)))
  else if startsWithS line "Throughput:" then
    some (.throughput, pyIndex (tokens line) 1 >>= pyFloatE)
  else none

/-- One iteration of the scanning loop: a matching line overwrites its
slot of the dict, a raised error aborts. -/
def scanLine (m : Metrics) (line : String) : Except String Metrics :=
  match classifyLine line with
  | none => Except.ok m
  | some (_, Except.error e) => Except.error e
  | some (f, Except.ok v) => Except.ok (setField m f v)

/-- The `for line in f` loop. -/
def scanLines (m : Metrics) : List String → Except String Metrics
  | [] => Except.ok m
  | l :: ls =>
    match scanLine m l with
    | Except.error e => Except.error e
    | Except.ok m' => scanLines m' ls

/-- The final `None in metrics.values()` completeness test. -/
def hasNone (m : Metrics) : Bool :=
  m.runtime_ms.isNone || m.throughput_reqs_per_sec.isNone ||
  m.latency_ms.isNone || m.avg_enqueue_ms.isNone || m.avg_dequeue_ms.isNone

/-- `parse_result_file(filepath)` over the list of lines of the file:
scan every line, then fail when any of the five slots is still `None`. -/
def parse_result_file (filepath : String) (lines : List String) :
    Except String Metrics :=
  match scanLines emptyMetrics lines with
  | Except.error e => Except.error e
  | Except.ok m =>
    if hasNone m then Except.error ("Missing metrics in file: " ++ filepath)
    else Except.ok m

/-! ### Data aggregation -/

/-- One file inside a walked directory: its base name and its lines. -/
structure FileEntry where
  name : String
  lines : List String
deriving DecidableEq

/-- One `(root, dirs, files)` triple yielded by `os.walk`: the path of the
visited directory, its base name, and its files. -/
structure DirEntry where
  name : String
  path : String
  files : List FileEntry
deriving DecidableEq

/-- One row appended by `gather_results`. -/
structure Row where
  threads : ℕ
  requests_per_client : ℕ
  queue : String
  metrics : Metrics
deriving DecidableEq

/-- Inner loop of `gather_results`: over the files of a retained directory,
keep the ones whose name contains `"_results_"`, parse each and append
its row; a parse error propagates. -/
def gatherFiles (threads reqs : ℕ) (path : String) :
    List FileEntry → List Row → Except String (List Row)
  | [], rows => Except.ok rows
  | f :: fs, rows =>
    if listContainsSub "_results_".data f.name.data then
      match parse_result_file (pathJoin path f.name) f.lines with
      | Except.error e => Except.error e
      | Except.ok m =>
        gatherFiles threads reqs path fs
          (rows ++ [⟨threads, reqs, parse_queue_name f.name, m⟩])
    else gatherFiles threads reqs path fs rows

/-- Outer loop of `gather_results` over the walked directories: skip a
directory whose base name does not match the pattern, skip (with a printed
notice) one whose thread count is outside `VALID_THREAD_COUNTS`, and
otherwise process its files. -/
def gatherDirs : List DirEntry → List Row → Except String (List Row)
  | [], rows => Except.ok rows
  | d :: ds, rows =>
    match parse_threads_and_reqs d.name with
    | none => gatherDirs ds rows
    | some (threads, reqs) =>
      if threads ∈ VALID_THREAD_COUNTS then
        match gatherFiles threads reqs d.path d.files rows with
        | Except.error e => Except.error e
        | Except.ok rows' => gatherDirs ds rows'
      else gatherDirs ds rows

/-- `gather_results()` over an abstract walk of `RESULTS_DIR`. -/
def gather_results (walk : List DirEntry) : Except String (List Row) :=
  gatherDirs walk []

/-- Number of files of one walked directory that produce a row: zero when
the directory is skipped, otherwise the number of its files whose name
contains the separator token. -/
def qualifyingCount (d : DirEntry) : ℕ :=
  match parse_threads_and_reqs d.name with
  | none => 0
  | some (t, _) =>
    if t ∈ VALID_THREAD_COUNTS then
      (d.files.filter fun f => listContainsSub "_results_".data f.name.data).length
    else 0

/-! ### CSV export -/

/-- Sort key of `write_csv`: the Python tuple
`(r["requests_per_client"], r["threads"], r["queue"])` under tuple
comparison, i.e. the lexicographic product order with the code-point
lexicographic order on the queue name. -/
def rowKey (r : Row) : Lex (ℕ × Lex (ℕ × String)) :=
  toLex (r.requests_per_client, toLex (r.threads, r.queue))

def rowLe (a b : Row) : Prop := rowKey a ≤ rowKey b

instance : DecidableRel rowLe := fun a b =>
  inferInstanceAs (Decidable (rowKey a ≤ rowKey b))

instance : IsTotal Row rowLe := ⟨fun a b => le_total (rowKey a) (rowKey b)⟩

instance : IsTrans Row rowLe := ⟨fun _ _ _ h1 h2 => le_trans h1 h2⟩

/-- A written CSV file: its path, header and rows. -/
structure CsvFile where
  path : String
  header : List String
  rows : List Row
deriving DecidableEq

/-- The fixed `fieldnames` of `write_csv`. -/
def fieldnames : List String :=
  ["threads", "requests_per_client", "queue",
   "runtime_ms", "throughput_reqs_per_sec", "latency_ms",
   "avg_enqueue_ms", "avg_dequeue_ms"]

/-- `write_csv(rows, filename)`: the header then the rows sorted by the
key tuple (Python `sorted` is a stable comparison sort; any sort by the
same total order yields the same sorted sequence here). -/
def write_csv (rows : List Row) (filename : String) : CsvFile :=
  ⟨pathJoin CSV_DIR filename, fieldnames, List.insertionSort rowLe rows⟩

/-- First-occurrence list of the distinct `requests_per_client` values,
the key order of the `defaultdict` grouping. -/
def workloads (rows : List Row) : List ℕ :=
  (rows.map Row.requests_per_client).eraseDups

/-- `write_per_workload_csvs(rows)`. -/
def write_per_workload_csvs (rows : List Row) : List CsvFile :=
  (workloads rows).map fun reqs =>
    write_csv (rows.filter fun r => r.requests_per_client = reqs)
      ("aggregate_" ++ toString reqs ++ "_reqPerClient.csv")

/-- Paths of the chart images `generate_all_plots` writes: for each
workload, one image per metric in `PLOT_SUBDIRS` order. -/
def generate_all_plots_files (rows : List Row) : List String :=
  (workloads rows).flatMap fun reqs =>
    PLOT_SUBDIRS.map fun p =>
      pathJoin (pathJoin PLOTS_DIR p.2) (p.1 ++ "_" ++ toString reqs ++ ".png")

/-! ### Main -/

/-- Observable outcome of a successful run: the CSV files written, the
chart files written, and the diagnostic printed on the empty-result path. -/
structure RunOutputs where
  csv_files : List CsvFile
  chart_files : List String
  diagnostic : Option String
deriving DecidableEq

/-- The script function `main()` (the name `main` is reserved in Lean for
entry points, hence `mainRun`): gather, bail out with a diagnostic and no
output files when no rows were found, otherwise write the full CSV, the
per-workload CSVs and all charts. An uncaught parse error aborts the run. -/
def mainRun (walk : List DirEntry) : Except String RunOutputs :=
  match gather_results walk with
  | Except.error e => Except.error e
  | Except.ok rows =>
    if rows = [] then
      Except.ok ⟨[], [], some "No rows found — check RESULTS_DIR path."⟩
    else
      Except.ok ⟨write_csv rows "all_results_filtered.csv" ::
                   write_per_workload_csvs rows,
                 generate_all_plots_files rows, none⟩

/-! ## Helper lemmas -/

/-- `qDivNat` is division: the kernel-computable form equals `v / n`
(at `n = 0` both sides are `0` under the division-by-zero convention). -/
theorem qDivNat_eq_div (v : ℚ) (n : ℕ) : qDivNat v n = v / (n : ℚ) := by
  rw [qDivNat, Rat.mkRat_eq_div]
  push_cast
  rw [div_mul_eq_div_div, Rat.num_div_den]

/-- `decimalVal` is the value of the decimal numeral. -/
theorem decimalVal_eq_div (ip fr : List Char) :
    decimalVal ip fr =
      (natOfDigits ip : ℚ) + (natOfDigits fr : ℚ) / (10 : ℚ) ^ fr.length := by
  rw [decimalVal, Rat.mkRat_eq_div]
  have h10 : ((10 : ℚ) ^ fr.length) ≠ 0 := by positivity
  push_cast
  field_simp

theorem isPrefixL_append_self (p r : List Char) : isPrefixL p (p ++ r) = true := by
  induction p with
  | nil => rfl
  | cons c cs ih => simp [isPrefixL, ih]

theorem stripPfx_eq_some (p : List Char) :
    ∀ cs r, stripPfx p cs = some r ↔ cs = p ++ r := by
  induction p with
  | nil => intro cs r; simp [stripPfx]
  | cons x xs ih =>
    intro cs r
    cases cs with
    | nil => simp [stripPfx]
    | cons c cs' =>
      by_cases h : x = c
      · subst h; simp [stripPfx, ih]
      · simp [stripPfx, h]
        intro hc
        exact absurd hc.symm h

theorem takeWhile_append_cons (p : Char → Bool) (T : List Char) (c : Char)
    (rest : List Char) (hT : ∀ x ∈ T, p x = true) (hc : p c = false) :
    (T ++ c :: rest).takeWhile p = T := by
  induction T with
  | nil => simp [List.takeWhile_cons, hc]
  | cons a T ih =>
    have ha : p a = true := hT a (List.mem_cons_self a T)
    simp only [List.cons_append, List.takeWhile_cons, ha]
    simp [ih fun x hx => hT x (List.mem_cons_of_mem a hx)]

theorem dropWhile_append_cons (p : Char → Bool) (T : List Char) (c : Char)
    (rest : List Char) (hT : ∀ x ∈ T, p x = true) (hc : p c = false) :
    (T ++ c :: rest).dropWhile p = c :: rest := by
  induction T with
  | nil => simp [List.dropWhile_cons, hc]
  | cons a T ih =>
    have ha : p a = true := hT a (List.mem_cons_self a T)
    simp only [List.cons_append, List.dropWhile_cons, ha]
    simpa using ih fun x hx => hT x (List.mem_cons_of_mem a hx)

theorem listContainsSub_append_self (pat pre : List Char) :
    listContainsSub pat (pre ++ pat) = true := by
  induction pre with
  | nil =>
    cases hp : pat with
    | nil => rfl
    | cons c cs =>
      have := isPrefixL_append_self (c :: cs) []
      simp only [List.append_nil] at this
      simp [listContainsSub, this]
  | cons x pre ih => simp [listContainsSub, ih]

/-! ### Scanning lemmas -/

theorem getField_setField_same (m : Metrics) (f : MetricField) (v : ℚ) :
    getField (setField m f v) f = some v := by
  cases f <;> rfl

theorem getField_setField_ne (m : Metrics) (f g : MetricField) (v : ℚ)
    (h : f ≠ g) : getField (setField m g v) f = getField m f := by
  cases f <;> cases g <;> first | rfl | exact absurd rfl h

theorem scanLines_append (xs ys : List String) :
    ∀ m, scanLines m (xs ++ ys) =
      match scanLines m xs with
      | Except.error e => Except.error e
      | Except.ok m' => scanLines m' ys := by
  induction xs with
  | nil => intro m; simp [scanLines]
  | cons l ls ih =>
    intro m
    simp only [List.cons_append, scanLines]
    cases scanLine m l with
    | error e => rfl
    | ok m' => exact ih m'

theorem scanLines_preserves (f : MetricField) :
    ∀ (ls : List String) (m m' : Metrics),
      (∀ l ∈ ls, ∀ ex, classifyLine l ≠ some (f, ex)) →
      scanLines m ls = Except.ok m' →
      getField m' f = getField m f := by
  intro ls
  induction ls with
  | nil =>
    intro m m' _ h
    simp only [scanLines] at h
    cases h
    rfl
  | cons l ls ih =>
    intro m m' hcl h
    simp only [scanLines] at h
    cases hc : scanLine m l with
    | error e => rw [hc] at h; cases h
    | ok m₁ =>
      rw [hc] at h
      have hpres : getField m₁ f = getField m f := by
        unfold scanLine at hc
        cases hcls : classifyLine l with
        | none => rw [hcls] at hc; cases hc; rfl
        | some p =>
          obtain ⟨g, ex⟩ := p
          cases ex with
          | error e => rw [hcls] at hc; cases hc
          | ok v =>
            rw [hcls] at hc
            cases hc
            have hgf : f ≠ g := by
              intro hfg
              exact hcl l (List.mem_cons_self l ls) (Except.ok v) (hfg ▸ hcls)
            exact getField_setField_ne m f g v hgf
      rw [ih m₁ m' (fun x hx => hcl x (List.mem_cons_of_mem l hx)) h, hpres]

/-! ### Aggregation lemmas -/

theorem gatherFiles_ok (t q : ℕ) (p : String) :
    ∀ (fs : List FileEntry) (rows rows' : List Row),
      gatherFiles t q p fs rows = Except.ok rows' →
      ∃ new, rows' = rows ++ new ∧
        new.length = (fs.filter fun f =>
          listContainsSub "_results_".data f.name.data).length ∧
        (∀ r ∈ new, r.threads = t ∧ r.requests_per_client = q) ∧
        (∀ f ∈ fs, listContainsSub "_results_".data f.name.data = true →
          ∃ m, parse_result_file (pathJoin p f.name) f.lines = Except.ok m) := by
  intro fs
  induction fs with
  | nil =>
    intro rows rows' h
    simp only [gatherFiles] at h
    cases h
    exact ⟨[], by simp⟩
  | cons f fs ih =>
    intro rows rows' h
    simp only [gatherFiles] at h
    by_cases hq : listContainsSub "_results_".data f.name.data = true
    · rw [if_pos hq] at h
      cases hp : parse_result_file (pathJoin p f.name) f.lines with
      | error e => rw [hp] at h; cases h
      | ok m =>
        rw [hp] at h
        obtain ⟨new', h1, h2, h3, h4⟩ := ih (rows ++ [⟨t, q, parse_queue_name f.name, m⟩]) rows' h
        refine ⟨⟨t, q, parse_queue_name f.name, m⟩ :: new', ?_, ?_, ?_, ?_⟩
        · simp [h1]
        · simp [List.filter_cons, hq, h2]
        · intro r hr
          rcases List.mem_cons.mp hr with hr | hr
          · subst hr; exact ⟨rfl, rfl⟩
          · exact h3 r hr
        · intro g hg hgq
          rcases List.mem_cons.mp hg with hg | hg
          · subst hg; exact ⟨m, hp⟩
          · exact h4 g hg hgq
    · rw [if_neg hq] at h
      obtain ⟨new', h1, h2, h3, h4⟩ := ih rows rows' h
      refine ⟨new', h1, ?_, h3, ?_⟩
      · simp only [List.filter_cons]
        rw [if_neg hq]
        exact h2
      · intro g hg hgq
        rcases List.mem_cons.mp hg with hg | hg
        · subst hg; exact absurd hgq hq
        · exact h4 g hg hgq

theorem gatherDirs_ok :
    ∀ (ds : List DirEntry) (rows rows' : List Row),
      gatherDirs ds rows = Except.ok rows' →
      ∃ new, rows' = rows ++ new ∧
        new.length = (ds.map qualifyingCount).sum ∧
        (∀ r ∈ new, r.threads ∈ VALID_THREAD_COUNTS) ∧
        (∀ d ∈ ds, ∀ t q, parse_threads_and_reqs d.name = some (t, q) →
          t ∈ VALID_THREAD_COUNTS →
          ∀ f ∈ d.files, listContainsSub "_results_".data f.name.data = true →
            ∃ m, parse_result_file (pathJoin d.path f.name) f.lines =
              Except.ok m) := by
  intro ds
  induction ds with
  | nil =>
    intro rows rows' h
    simp only [gatherDirs] at h
    cases h
    exact ⟨[], by simp⟩
  | cons d ds ih =>
    intro rows rows' h
    simp only [gatherDirs] at h
    cases hp : parse_threads_and_reqs d.name with
    | none =>
      simp only [hp] at h
      obtain ⟨new, h1, h2, h3, h4⟩ := ih rows rows' h
      refine ⟨new, h1, ?_, h3, ?_⟩
      · simp [qualifyingCount, hp, h2]
      · intro d' hd' t' q' hp' ht' f hf hfq
        rcases List.mem_cons.mp hd' with hd' | hd'
        · subst hd'; rw [hp] at hp'; cases hp'
        · exact h4 d' hd' t' q' hp' ht' f hf hfq
    | some tq =>
      obtain ⟨t₀, q₀⟩ := tq
      simp only [hp] at h
      by_cases ht : t₀ ∈ VALID_THREAD_COUNTS
      · rw [if_pos ht] at h
        cases hg : gatherFiles t₀ q₀ d.path d.files rows with
        | error e => rw [hg] at h; cases h
        | ok rows₁ =>
          rw [hg] at h
          obtain ⟨new₁, g1, g2, g3, g4⟩ :=
            gatherFiles_ok t₀ q₀ d.path d.files rows rows₁ hg
          obtain ⟨new₂, h1, h2, h3, h4⟩ := ih rows₁ rows' h
          refine ⟨new₁ ++ new₂, ?_, ?_, ?_, ?_⟩
          · rw [h1, g1, List.append_assoc]
          · simp only [List.map_cons, List.sum_cons, List.length_append, h2, g2]
            have hqc : qualifyingCount d = (d.files.filter fun f =>
                listContainsSub "_results_".data f.name.data).length := by
              simp [qualifyingCount, hp, ht]
            rw [hqc]
          · intro r hr
            rcases List.mem_append.mp hr with hr | hr
            · rw [(g3 r hr).1]; exact ht
            · exact h3 r hr
          · intro d' hd' t' q' hp' ht' f hf hfq
            rcases List.mem_cons.mp hd' with hd' | hd'
            · subst hd'
              rw [hp] at hp'
              cases hp'
              exact g4 f hf hfq
            · exact h4 d' hd' t' q' hp' ht' f hf hfq
      · rw [if_neg ht] at h
        obtain ⟨new, h1, h2, h3, h4⟩ := ih rows rows' h
        refine ⟨new, h1, ?_, h3, ?_⟩
        · simp [qualifyingCount, hp, ht, h2]
        · intro d' hd' t' q' hp' ht' f hf hfq
          rcases List.mem_cons.mp hd' with hd' | hd'
          · subst hd'
            rw [hp] at hp'
            cases hp'
            exact absurd ht' ht
          · exact h4 d' hd' t' q' hp' ht' f hf hfq

theorem gatherFiles_of_no_qual (t q : ℕ) (p : String) :
    ∀ (fs : List FileEntry) (rows : List Row),
      (∀ f ∈ fs, listContainsSub "_results_".data f.name.data = false) →
      gatherFiles t q p fs rows = Except.ok rows := by
  intro fs
  induction fs with
  | nil => intro rows _; rfl
  | cons f fs ih =>
    intro rows hno
    have hf : listContainsSub "_results_".data f.name.data = false :=
      hno f (List.mem_cons_self f fs)
    simp only [gatherFiles, hf]
    simp only [Bool.false_eq_true, if_false]
    exact ih rows fun g hg => hno g (List.mem_cons_of_mem f hg)

theorem gatherDirs_of_zero :
    ∀ (ds : List DirEntry) (rows : List Row),
      (ds.map qualifyingCount).sum = 0 →
      gatherDirs ds rows = Except.ok rows := by
  intro ds
  induction ds with
  | nil => intro rows _; rfl
  | cons d ds ih =>
    intro rows hz
    simp only [List.map_cons, List.sum_cons, Nat.add_eq_zero] at hz
    obtain ⟨hd, hds⟩ := hz
    cases hp : parse_threads_and_reqs d.name with
    | none => simp only [gatherDirs, hp]; exact ih rows hds
    | some tq =>
      obtain ⟨t₀, q₀⟩ := tq
      simp only [gatherDirs, hp]
      by_cases ht : t₀ ∈ VALID_THREAD_COUNTS
      · rw [if_pos ht]
        have hqc : (d.files.filter fun f =>
            listContainsSub "_results_".data f.name.data).length = 0 := by
          simpa [qualifyingCount, hp, ht] using hd
        have hall : ∀ f ∈ d.files,
            listContainsSub "_results_".data f.name.data = false := by
          intro f hf
          by_contra hc
          have hc' : listContainsSub "_results_".data f.name.data = true := by
            revert hc
            cases listContainsSub "_results_".data f.name.data <;> simp
          have : f ∈ d.files.filter fun f =>
              listContainsSub "_results_".data f.name.data :=
            List.mem_filter.mpr ⟨hf, hc'⟩
          rw [List.length_eq_zero.mp hqc] at this
          cases this
        rw [gatherFiles_of_no_qual t₀ q₀ d.path d.files rows hall]
        exact ih rows hds
      · rw [if_neg ht]
        exact ih rows hds

/-! ### Directory-name parsing lemmas -/

theorem parse_tr_sound (name : String) (t r : ℕ)
    (h : parse_threads_and_reqs name = some (t, r)) :
    ∃ T R : List Char, T ≠ [] ∧ R ≠ [] ∧
      (∀ c ∈ T, c.isDigit = true) ∧ (∀ c ∈ R, c.isDigit = true) ∧
      name.data = "threads_".data ++ (T ++ ('_' :: (R ++ "_reqPerClient".data))) ∧
      t = natOfDigits T ∧ r = natOfDigits R := by
  unfold parse_threads_and_reqs at h
  cases hs1 : stripPfx "threads_".data name.data with
  | none => rw [hs1] at h; cases h
  | some r1 =>
    simp only [hs1] at h
    by_cases hT : r1.takeWhile Char.isDigit = []
    · rw [if_pos hT] at h; cases h
    · rw [if_neg hT] at h
      cases hs2 : stripPfx "_".data (r1.dropWhile Char.isDigit) with
      | none => rw [hs2] at h; cases h
      | some r3 =>
        simp only [hs2] at h
        by_cases hR : r3.takeWhile Char.isDigit = []
        · rw [if_pos hR] at h; cases h
        · rw [if_neg hR] at h
          by_cases h4 : r3.dropWhile Char.isDigit = "_reqPerClient".data
          · rw [if_pos h4] at h
            injection h with h
            injection h with ht hr
            refine ⟨r1.takeWhile Char.isDigit, r3.takeWhile Char.isDigit,
              hT, hR, ?_, ?_, ?_, ht.symm, hr.symm⟩
            · intro c hc; exact List.mem_takeWhile_imp hc
            · intro c hc; exact List.mem_takeWhile_imp hc
            · have e1 : name.data = "threads_".data ++ r1 :=
                (stripPfx_eq_some _ _ _).mp hs1
              have e2 : r1.dropWhile Char.isDigit = '_' :: r3 := by
                have := (stripPfx_eq_some "_".data _ _).mp hs2
                simpa using this
              have e3 : r3 = r3.takeWhile Char.isDigit ++ "_reqPerClient".data := by
                conv_lhs => rw [← List.takeWhile_append_dropWhile
                  (p := Char.isDigit) (l := r3)]
                rw [h4]
              have e4 : r1 = r1.takeWhile Char.isDigit ++
                  ('_' :: (r3.takeWhile Char.isDigit ++ "_reqPerClient".data)) := by
                conv_lhs => rw [← List.takeWhile_append_dropWhile
                  (p := Char.isDigit) (l := r1)]
                rw [e2, ← e3]
              conv_lhs => rw [e1, e4]
          · rw [if_neg h4] at h; cases h

theorem parse_tr_complete (T R : List Char) (hT : T ≠ []) (hR : R ≠ [])
    (hTd : ∀ c ∈ T, c.isDigit = true) (hRd : ∀ c ∈ R, c.isDigit = true)
    (name : String)
    (hname : name.data =
      "threads_".data ++ (T ++ ('_' :: (R ++ "_reqPerClient".data)))) :
    parse_threads_and_reqs name = some (natOfDigits T, natOfDigits R) := by
  have hus : Char.isDigit '_' = false := by decide
  have h1 : stripPfx "threads_".data name.data =
      some (T ++ ('_' :: (R ++ "_reqPerClient".data))) :=
    (stripPfx_eq_some _ _ _).mpr hname
  have htw : (T ++ ('_' :: (R ++ "_reqPerClient".data))).takeWhile Char.isDigit
      = T := takeWhile_append_cons _ _ _ _ hTd hus
  have hdw : (T ++ ('_' :: (R ++ "_reqPerClient".data))).dropWhile Char.isDigit
      = '_' :: (R ++ "_reqPerClient".data) :=
    dropWhile_append_cons _ _ _ _ hTd hus
  have hrq : "_reqPerClient".data = '_' :: "reqPerClient".data := rfl
  have htw2 : (R ++ "_reqPerClient".data).takeWhile Char.isDigit = R := by
    rw [hrq]; exact takeWhile_append_cons _ _ _ _ hRd hus
  have hdw2 : (R ++ "_reqPerClient".data).dropWhile Char.isDigit =
      "_reqPerClient".data := by
    rw [hrq]; exact dropWhile_append_cons _ _ _ _ hRd hus
  have h2 : stripPfx "_".data ('_' :: (R ++ "_reqPerClient".data)) =
      some (R ++ "_reqPerClient".data) := by
    simp [stripPfx]
  unfold parse_threads_and_reqs
  rw [h1]
  simp only [htw, hdw, h2, htw2, hdw2]
  rw [if_neg hT, if_neg hR]
  simp

/-! ### Result-file parsing as scan plus completeness check -/

theorem parse_result_file_ok_iff (fp : String) (lines : List String)
    (m' : Metrics) :
    parse_result_file fp lines = Except.ok m' ↔
      scanLines emptyMetrics lines = Except.ok m' ∧ hasNone m' = false := by
  cases h : scanLines emptyMetrics lines with
  | error e => simp [parse_result_file, h]
  | ok m =>
    simp only [parse_result_file, h]
    by_cases hn : hasNone m = true
    · rw [if_pos hn]
      constructor
      · intro hc; cases hc
      · rintro ⟨hm, hn'⟩
        injection hm with hm
        subst hm
        rw [hn] at hn'
        cases hn'
    · rw [if_neg hn]
      constructor
      · intro hc
        injection hc with hc
        subst hc
        exact ⟨rfl, Bool.not_eq_true _ ▸ hn⟩
      · rintro ⟨hm, _⟩
        exact hm

/-! ## Claims -/

/-- Claim C1: a result file with the five scenario lines, in directory
`threads_8_100_reqPerClient`, named `lockfree_results_run1.txt`, produces
exactly the record with threads 8, requests_per_client 100, queue
`lockfree`, runtime 120.5, throughput 9500, latency 2 ms, enqueue 1.5 ms
and dequeue 0.8 ms. -/
theorem claim_C1_scenario_record :
    gather_results
      [⟨"threads_8_100_reqPerClient",
        pathJoin RESULTS_DIR "threads_8_100_reqPerClient",
        [⟨"lockfree_results_run1.txt",
          ["Total runtime: 120.5 sec",
           "Avg enqueue time: 1500 µs",
           "Avg dequeue time: 800 µs",
           "Avg end-to-end request latency: 2 ms",
           "Throughput: 9500 ops"]⟩]⟩] =
    Except.ok [⟨8, 100, "lockfree",
      ⟨some 120.5, some 9500, some 2.0, some 1.5, some 0.8⟩⟩] := by
  have h :
      gather_results
        [⟨"threads_8_100_reqPerClient",
          pathJoin RESULTS_DIR "threads_8_100_reqPerClient",
          [⟨"lockfree_results_run1.txt",
            ["Total runtime: 120.5 sec",
             "Avg enqueue time: 1500 µs",
             "Avg dequeue time: 800 µs",
             "Avg end-to-end request latency: 2 ms",
             "Throughput: 9500 ops"]⟩]⟩] =
      Except.ok [⟨8, 100, "lockfree",
        ⟨some (mkRat 241 2), some (mkRat 9500 1), some (mkRat 2 1),
         some (mkRat 3 2), some (mkRat 4 5)⟩⟩] := by decide
  rw [h]
  norm_num [Rat.mkRat_eq_div]

/-- Claim C2: when the scan of a result file leaves one of the five metric
slots unpopulated, `parse_result_file` fails with the missing-metrics
error rather than returning a partial record, and a table returned by a
successful `gather_results` only ever drew on files whose parse succeeded
completely. -/
theorem claim_C2_missing_metric_fatal (fp : String) (lines : List String)
    (m : Metrics) (hscan : scanLines emptyMetrics lines = Except.ok m)
    (hmiss : hasNone m = true) :
    parse_result_file fp lines =
      Except.error ("Missing metrics in file: " ++ fp) ∧
    (∀ res, parse_result_file fp lines ≠ Except.ok res) ∧
    ∀ (walk : List DirEntry) (rows : List Row),
      gather_results walk = Except.ok rows →
      ∀ d ∈ walk, ∀ t q, parse_threads_and_reqs d.name = some (t, q) →
        t ∈ VALID_THREAD_COUNTS →
        ∀ f ∈ d.files, listContainsSub "_results_".data f.name.data = true →
          ∃ mm, parse_result_file (pathJoin d.path f.name) f.lines =
            Except.ok mm := by
  have h1 : parse_result_file fp lines =
      Except.error ("Missing metrics in file: " ++ fp) := by
    simp only [parse_result_file, hscan]
    rw [if_pos hmiss]
  refine ⟨h1, ?_, ?_⟩
  · intro res hok
    rw [h1] at hok
    cases hok
  · intro walk rows hg d hd t q hpq ht f hf hfq
    obtain ⟨_, _, _, _, h4⟩ := gatherDirs_ok walk [] rows hg
    exact h4 d hd t q hpq ht f hf hfq

/-- Witness for C2 at the empty file: scanning populates nothing, so the
parse fails with the missing-metrics error. -/
theorem claim_C2_witness :
    parse_result_file "x" [] =
      Except.error ("Missing metrics in file: " ++ "x") :=
  (claim_C2_missing_metric_fatal "x" [] emptyMetrics (by decide) (by decide)).1

/-- Claim C3: `parse_time_to_ms` returns the value unchanged for unit
`ms`, the value divided by 1000 for `µs`, the value divided by 1000000
for `ns`, and fails with the unknown-unit error for every other unit
token; in particular 1500 µs is exactly 1.5 ms and 2000000 ns is exactly
2.0 ms. -/
theorem claim_C3_unit_conversion (s vs unit : String) (v : ℚ)
    (h1 : tokens (trimS s) = [vs, unit]) (h2 : pyFloat vs = some v) :
    (unit = "ms" → parse_time_to_ms s = Except.ok v) ∧
    (unit = "µs" → parse_time_to_ms s = Except.ok (v / 1000)) ∧
    (unit = "ns" → parse_time_to_ms s = Except.ok (v / 1000000)) ∧
    (unit ≠ "ms" → unit ≠ "µs" → unit ≠ "ns" →
      parse_time_to_ms s =
        Except.error ("Unknown time unit: \x27" ++ unit ++ "\x27")) ∧
    parse_time_to_ms "1500 µs" = Except.ok 1.5 ∧
    parse_time_to_ms "2000000 ns" = Except.ok 2.0 := by
  have hms : parse_time_to_ms "1500 µs" = Except.ok (mkRat 3 2) := by decide
  have hns : parse_time_to_ms "2000000 ns" = Except.ok (mkRat 2 1) := by decide
  refine ⟨?_, ?_, ?_, ?_, ?_, ?_⟩
  · intro hu
    subst hu
    simp [parse_time_to_ms, h1, h2]
  · intro hu
    subst hu
    have hq : qDivNat v 1000 = v / 1000 := by
      rw [qDivNat_eq_div]
      norm_num
    simp [parse_time_to_ms, h1, h2, hq]
  · intro hu
    subst hu
    have hq : qDivNat v 1000000 = v / 1000000 := by
      rw [qDivNat_eq_div]
      norm_num
    simp [parse_time_to_ms, h1, h2, hq]
  · intro hu1 hu2 hu3
    simp [parse_time_to_ms, h1, h2, hu1, hu2, hu3]
  · rw [hms]
    norm_num [Rat.mkRat_eq_div]
  · rw [hns]
    norm_num [Rat.mkRat_eq_div]

/-- Witness for C3 at `7 ms`: a millisecond value passes through
unchanged. -/
theorem claim_C3_witness : parse_time_to_ms "7 ms" = Except.ok 7 :=
  (claim_C3_unit_conversion "7 ms" "7" "ms" 7 (by decide) (by decide)).1 rfl

/-- Claim C4: every record of a successfully gathered table has a thread
count inside `VALID_THREAD_COUNTS`; a directory naming any other thread
count contributes no records. -/
theorem claim_C4_thread_allow_set (walk : List DirEntry) (rows : List Row)
    (h : gather_results walk = Except.ok rows) :
    ∀ r ∈ rows, r.threads ∈ VALID_THREAD_COUNTS := by
  obtain ⟨new, h1, _, h3, _⟩ := gatherDirs_ok walk [] rows h
  rw [List.nil_append] at h1
  subst h1
  exact h3

/-- Witness for C4: a gathered single-record table from an 8-thread
directory has its thread count in the allow-set (and a 32-thread directory
alongside it contributes nothing). -/
theorem claim_C4_witness :
    (⟨8, 5, "mutex", ⟨some 3, some 4, some (mkRat 1 1000),
      some (mkRat 1 1000), some (mkRat 1 1000)⟩⟩ : Row).threads ∈
      VALID_THREAD_COUNTS :=
  claim_C4_thread_allow_set
    [⟨"threads_32_5_reqPerClient", "../results/threads_32_5_reqPerClient",
      [⟨"mutex_results_run1.txt",
        ["Total runtime: 3 sec", "Avg enqueue time: 1 µs",
         "Avg dequeue time: 1 µs", "Avg end-to-end request latency: 1 µs",
         "Throughput: 4 ops"]⟩]⟩,
     ⟨"threads_8_5_reqPerClient", "../results/threads_8_5_reqPerClient",
      [⟨"mutex_results_run1.txt",
        ["Total runtime: 3 sec", "Avg enqueue time: 1 µs",
         "Avg dequeue time: 1 µs", "Avg end-to-end request latency: 1 µs",
         "Throughput: 4 ops"]⟩]⟩]
    [⟨8, 5, "mutex", ⟨some 3, some 4, some (mkRat 1 1000),
      some (mkRat 1 1000), some (mkRat 1 1000)⟩⟩]
    (by decide) _ (by decide)

/-- Claim C5: `parse_threads_and_reqs` succeeds exactly on the base names
of the shape `threads_<T>_<R>_reqPerClient` with `T` and `R` nonempty
digit strings, returning the two embedded integers, and yields nothing on
every other name. -/
theorem claim_C5_dir_pattern (name : String) (t r : ℕ) :
    parse_threads_and_reqs name = some (t, r) ↔
      ∃ T R : List Char, T ≠ [] ∧ R ≠ [] ∧
        (∀ c ∈ T, c.isDigit = true) ∧ (∀ c ∈ R, c.isDigit = true) ∧
        name.data =
          "threads_".data ++ (T ++ ('_' :: (R ++ "_reqPerClient".data))) ∧
        t = natOfDigits T ∧ r = natOfDigits R := by
  constructor
  · exact parse_tr_sound name t r
  · rintro ⟨T, R, hT, hR, hTd, hRd, hname, ht, hr⟩
    subst ht
    subst hr
    exact parse_tr_complete T R hT hR hTd hRd name hname

/-- Witness for C5: the scenario directory name parses to `(8, 100)`. -/
theorem claim_C5_witness :
    parse_threads_and_reqs "threads_8_100_reqPerClient" = some (8, 100) :=
  (claim_C5_dir_pattern "threads_8_100_reqPerClient" 8 100).mpr
    ⟨['8'], ['1', '0', '0'], by decide, by decide, by decide, by decide,
     by decide, by decide, by decide⟩

/-- Claim C6: the rows written by `write_csv` are sorted ascending by the
key (requests_per_client, threads, queue) — numeric on the first two
components, lexicographic on the queue name — they are a permutation of
the input rows, and the sorted output is a pure function of the input, so
repeated runs on the same input write identical output. -/
theorem claim_C6_sorted_rows (rows : List Row) (filename : String) :
    List.Sorted rowLe (write_csv rows filename).rows ∧
    (write_csv rows filename).rows.Perm rows ∧
    ∀ a b : Row, rowLe a b ↔
      (a.requests_per_client < b.requests_per_client ∨
        (a.requests_per_client = b.requests_per_client ∧
          (a.threads < b.threads ∨
            (a.threads = b.threads ∧ a.queue ≤ b.queue)))) := by
  refine ⟨List.sorted_insertionSort rowLe rows,
    List.perm_insertionSort rowLe rows, ?_⟩
  intro a b
  simp [rowLe, rowKey, Prod.Lex.le_iff]

/-- Witness for C6: two out-of-order rows come out sorted. -/
theorem claim_C6_witness :
    List.Sorted rowLe
      (write_csv
        [⟨16, 50, "spsc", emptyMetrics⟩, ⟨4, 50, "mutex", emptyMetrics⟩]
        "all_results_filtered.csv").rows :=
  (claim_C6_sorted_rows
    [⟨16, 50, "spsc", emptyMetrics⟩, ⟨4, 50, "mutex", emptyMetrics⟩]
    "all_results_filtered.csv").1

/-- Claim C7: a successful gather yields exactly one record per
qualifying file — a file whose name contains `_results_` inside a
retained directory — with no deduplication of repeated
(threads, requests_per_client, queue) triples. -/
theorem claim_C7_one_row_per_file (walk : List DirEntry) (rows : List Row)
    (h : gather_results walk = Except.ok rows) :
    rows.length = (walk.map qualifyingCount).sum := by
  obtain ⟨new, h1, h2, _, _⟩ := gatherDirs_ok walk [] rows h
  rw [List.nil_append] at h1
  subst h1
  exact h2

/-- Witness for C7: two files of the same directory mapping to the same
(threads, requests_per_client, queue) triple both stay in the table, so
the table has two rows. -/
theorem claim_C7_witness :
    ([⟨4, 10, "mutex", ⟨some 3, some 4, some (mkRat 1 1000),
        some (mkRat 1 1000), some (mkRat 1 1000)⟩⟩,
      ⟨4, 10, "mutex", ⟨some 3, some 4, some (mkRat 1 1000),
        some (mkRat 1 1000), some (mkRat 1 1000)⟩⟩] : List Row).length =
      (List.map qualifyingCount
        [⟨"threads_4_10_reqPerClient", "../results/threads_4_10_reqPerClient",
          [⟨"mutex_results_run1.txt",
            ["Total runtime: 3 sec", "Avg enqueue time: 1 µs",
             "Avg dequeue time: 1 µs", "Avg end-to-end request latency: 1 µs",
             "Throughput: 4 ops"]⟩,
           ⟨"mutex_results_run2.txt",
            ["Total runtime: 3 sec", "Avg enqueue time: 1 µs",
             "Avg dequeue time: 1 µs", "Avg end-to-end request latency: 1 µs",
             "Throughput: 4 ops"]⟩]⟩]).sum :=
  claim_C7_one_row_per_file
    [⟨"threads_4_10_reqPerClient", "../results/threads_4_10_reqPerClient",
      [⟨"mutex_results_run1.txt",
        ["Total runtime: 3 sec", "Avg enqueue time: 1 µs",
         "Avg dequeue time: 1 µs", "Avg end-to-end request latency: 1 µs",
         "Throughput: 4 ops"]⟩,
       ⟨"mutex_results_run2.txt",
        ["Total runtime: 3 sec", "Avg enqueue time: 1 µs",
         "Avg dequeue time: 1 µs", "Avg end-to-end request latency: 1 µs",
         "Throughput: 4 ops"]⟩]⟩]
    [⟨4, 10, "mutex", ⟨some 3, some 4, some (mkRat 1 1000),
        some (mkRat 1 1000), some (mkRat 1 1000)⟩⟩,
      ⟨4, 10, "mutex", ⟨some 3, some 4, some (mkRat 1 1000),
        some (mkRat 1 1000), some (mkRat 1 1000)⟩⟩]
    (by decide)

/-- Claim C9: when the walked tree has no qualifying file at all,
`gather_results` returns the empty table and the run ends cleanly with
the no-rows diagnostic, writing no CSV files and no chart files. -/
theorem claim_C9_empty_run (walk : List DirEntry)
    (h : (walk.map qualifyingCount).sum = 0) :
    gather_results walk = Except.ok [] ∧
    mainRun walk =
      Except.ok ⟨[], [], some "No rows found — check RESULTS_DIR path."⟩ := by
  have hg : gather_results walk = Except.ok [] := gatherDirs_of_zero walk [] h
  refine ⟨hg, ?_⟩
  simp [mainRun, hg]

/-- Witness for C9: a tree holding only a non-matching directory with a
non-result file produces the clean empty run. -/
theorem claim_C9_witness :
    mainRun [⟨"results", "../results", [⟨"notes.txt", ["hello"]⟩]⟩] =
      Except.ok ⟨[], [], some "No rows found — check RESULTS_DIR path."⟩ :=
  (claim_C9_empty_run [⟨"results", "../results", [⟨"notes.txt", ["hello"]⟩]⟩]
    (by decide)).2

/-- Claim C10: when a metric label line occurs more than once, every
matching line overwrites the stored slot, and the record returned by a
successful parse holds the value of the last matching line. -/
theorem claim_C10_last_overwrite (fp : String) (ls₁ : List String)
    (line : String) (ls₂ : List String) (f : MetricField) (v : ℚ)
    (m' : Metrics)
    (hline : classifyLine line = some (f, Except.ok v))
    (hafter : ∀ l ∈ ls₂, ∀ ex, classifyLine l ≠ some (f, ex))
    (hp : parse_result_file fp (ls₁ ++ line :: ls₂) = Except.ok m') :
    getField m' f = some v := by
  obtain ⟨hscan, -⟩ := (parse_result_file_ok_iff fp _ m').mp hp
  rw [scanLines_append ls₁ (line :: ls₂) emptyMetrics] at hscan
  cases h1 : scanLines emptyMetrics ls₁ with
  | error e => rw [h1] at hscan; cases hscan
  | ok m₁ =>
    simp only [h1] at hscan
    simp only [scanLines] at hscan
    have hstep : scanLine m₁ line = Except.ok (setField m₁ f v) := by
      simp [scanLine, hline]
    simp only [hstep] at hscan
    have hpres := scanLines_preserves f ls₂ (setField m₁ f v) m' hafter hscan
    rw [hpres, getField_setField_same]

/-- Witness for C10: with two enqueue lines in the file, the parsed
record holds the value of the second one (7 ms), not the first
(5 ms). -/
theorem claim_C10_witness :
    getField ⟨some 3, some 4, some (mkRat 1 1000), some 7,
      some (mkRat 1 1000)⟩ MetricField.enqueue = some 7 :=
  claim_C10_last_overwrite "p"
    ["Total runtime: 3 sec", "Avg enqueue time: 5 ms",
     "Avg dequeue time: 1 µs", "Avg end-to-end request latency: 1 µs",
     "Throughput: 4 ops"]
    "Avg enqueue time: 7 ms" [] MetricField.enqueue 7
    ⟨some 3, some 4, some (mkRat 1 1000), some 7, some (mkRat 1 1000)⟩
    (by decide) (by intro l hl; cases hl) (by decide)

/-- Counterexample for claim C8: a file containing `Avg enqueue time: 5
sec` aborts the run through the uncaught unknown-unit error, but the
message carried to the top level is `Unknown time unit: 'sec'`, which
does not contain the name (nor the path) of the offending file — so not
every parse error identifies the offending file. -/
theorem claim_C8_counterexample :
    mainRun [⟨"threads_4_100_reqPerClient",
      pathJoin RESULTS_DIR "threads_4_100_reqPerClient",
      [⟨"mutex_results_run1.txt", ["Avg enqueue time: 5 sec"]⟩]⟩] =
      Except.error "Unknown time unit: \x27sec\x27" ∧
    listContainsSub "mutex_results_run1.txt".data
      "Unknown time unit: \x27sec\x27".data = false ∧
    listContainsSub
      (pathJoin (pathJoin RESULTS_DIR "threads_4_100_reqPerClient")
        "mutex_results_run1.txt").data
      "Unknown time unit: \x27sec\x27".data = false := by
  refine ⟨by decide, by decide, by decide⟩

/-- Claim C8 (amended): every parse error propagates uncaught to the top
level and aborts the run with its message; the missing-metrics error
message identifies the offending file, while the unknown-unit error
message names only the unit token. -/
theorem claim_C8_error_propagation :
    (∀ (walk : List DirEntry) (e : String),
      gather_results walk = Except.error e → mainRun walk = Except.error e) ∧
    (∀ (fp : String) (lines : List String) (m : Metrics),
      scanLines emptyMetrics lines = Except.ok m → hasNone m = true →
        parse_result_file fp lines =
          Except.error ("Missing metrics in file: " ++ fp) ∧
        listContainsSub fp.data
          ("Missing metrics in file: " ++ fp).data = true) := by
  constructor
  · intro walk e hg
    simp [mainRun, hg]
  · intro fp lines m hscan hmiss
    constructor
    · simp only [parse_result_file, hscan]
      rw [if_pos hmiss]
    · rw [String.data_append]
      exact listContainsSub_append_self fp.data "Missing metrics in file: ".data

/-- Witness for the amended C8: an unknown-unit error raised while
parsing a file inside a retained directory surfaces unchanged as the
outcome of the whole run. -/
theorem claim_C8_witness :
    mainRun [⟨"threads_4_100_reqPerClient",
      pathJoin RESULTS_DIR "threads_4_100_reqPerClient",
      [⟨"spsc_results_run1.txt", ["Avg dequeue time: 5 sec"]⟩]⟩] =
      Except.error "Unknown time unit: \x27sec\x27" :=
  claim_C8_error_propagation.1
    [⟨"threads_4_100_reqPerClient",
      pathJoin RESULTS_DIR "threads_4_100_reqPerClient",
      [⟨"spsc_results_run1.txt", ["Avg dequeue time: 5 sec"]⟩]⟩]
    "Unknown time unit: \x27sec\x27" (by decide)
